import Mathlib

/-!
Verification of the CharForge character-sheet pipeline core.

Each Python function of the repository that the claims touch is embedded as
an executable Lean definition; external collaborators (diffusion pipelines,
face detector, HTTP APIs, the filesystem) are passed in explicitly as
oracles / state so the control flow of the Python source is reproduced
faithfully.
-/

namespace CharForge

/-! ## Image geometry layer — src/training/utilities.py

An image is its size plus a pixel map (RGB triples).  PIL operations used by
the source are embedded directly: `Image.new` + `paste` become the padded
pixel map of `rectangle_to_square`; `Image.resize` is an external resampler
passed as a parameter (its kernel is PIL's, only its size contract matters).
-/

structure Img where
  width : Nat
  height : Nat
  pix : Nat → Nat → Nat × Nat × Nat

/-- The default `background_color=(128, 128, 128)` of `rectangle_to_square`. -/
def grayFill : Nat × Nat × Nat := (128, 128, 128)

/-- Embedding of `utilities.rectangle_to_square` (default background color):
if the image is already square it is returned as is, otherwise a square
canvas of the larger side is filled with gray and the image pasted centered
at offsets `(t - w) // 2`, `(t - h) // 2`. -/
def rectangle_to_square (image : Img) : Img :=
  if image.width = image.height then image
  else
    let target_size := max image.width image.height
    let x_offset := (target_size - image.width) / 2
    let y_offset := (target_size - image.height) / 2
    { width := target_size
      height := target_size
      pix := fun x y =>
        if x_offset ≤ x ∧ x < x_offset + image.width ∧
           y_offset ≤ y ∧ y < y_offset + image.height then
          image.pix (x - x_offset) (y - y_offset)
        else grayFill }

/-- Embedding of `utilities.resize_if_large`: the Python source tests
`width <= max_size` only (the `width != height` case merely prints a
warning), returning the image unchanged below the threshold and
`image.resize((max_size, max_size), LANCZOS)` above it.  The resampler is
the external PIL call, abstracted as `resample`. -/
def resize_if_large (resample : Img → Nat → Nat → Img) (image : Img)
    (max_size : Nat) : Img :=
  if image.width ≤ max_size then image
  else resample image max_size max_size

/-- A concrete nearest-neighbour resampler standing in for PIL's LANCZOS
resize in closed evaluations; like PIL's, its output has exactly the
requested size. -/
def resampleNearest (image : Img) (w h : Nat) : Img :=
  { width := w
    height := h
    pix := fun x y => image.pix (x * image.width / w) (y * image.height / h) }

theorem rectangle_to_square_width_eq_height (image : Img) :
    (rectangle_to_square image).width = (rectangle_to_square image).height := by
  unfold rectangle_to_square
  by_cases h : image.width = image.height
  · simp [h]
  · simp [h]

theorem rectangle_to_square_of_square (image : Img)
    (h : image.width = image.height) : rectangle_to_square image = image := by
  unfold rectangle_to_square
  simp [h]

/-- C7: `rectangle_to_square` is idempotent, returns already-square images
unchanged, and pads rectangular images to the larger side with the neutral
gray fill, centered, so a single application always yields a square. -/
theorem rectangle_to_square_spec (image : Img) :
    rectangle_to_square (rectangle_to_square image) = rectangle_to_square image ∧
    (image.width = image.height → rectangle_to_square image = image) ∧
    (rectangle_to_square image).width = (rectangle_to_square image).height ∧
    (image.width ≠ image.height →
      (rectangle_to_square image).width = max image.width image.height ∧
      (∀ x y,
        (rectangle_to_square image).pix x y =
          if (max image.width image.height - image.width) / 2 ≤ x ∧
             x < (max image.width image.height - image.width) / 2 + image.width ∧
             (max image.width image.height - image.height) / 2 ≤ y ∧
             y < (max image.width image.height - image.height) / 2 + image.height
          then image.pix (x - (max image.width image.height - image.width) / 2)
                 (y - (max image.width image.height - image.height) / 2)
          else grayFill)) := by
  refine ⟨?_, ?_, rectangle_to_square_width_eq_height image, ?_⟩
  · exact rectangle_to_square_of_square (rectangle_to_square image)
      (rectangle_to_square_width_eq_height image)
  · exact rectangle_to_square_of_square image
  · intro h
    unfold rectangle_to_square
    simp [h]

/-- Concrete test image for closed instantiations: 2 wide, 1 tall. -/
def imgWide : Img := { width := 2, height := 1, pix := fun _ _ => (7, 7, 7) }

/-- Witness for C7 at a concrete 2×1 image. -/
theorem rectangle_to_square_spec_witness :
    rectangle_to_square (rectangle_to_square imgWide) = rectangle_to_square imgWide ∧
    (rectangle_to_square imgWide).width = max 2 1 :=
  ⟨(rectangle_to_square_spec imgWide).1,
   ((rectangle_to_square_spec imgWide).2.2.2 (by decide)).1⟩

/-- Concrete non-square image that is taller than it is wide. -/
def imgTall : Img := { width := 100, height := 2000, pix := fun _ _ => (0, 0, 0) }

/-- C8 counterexample: `imgTall` has maximum dimension 2000 > 1536, yet
`resize_if_large` returns it unchanged (its height stays 2000, not 1536),
because the source tests only the width against `max_size`. -/
theorem resize_if_large_counterexample :
    1536 < max imgTall.width imgTall.height ∧
    resize_if_large resampleNearest imgTall 1536 = imgTall ∧
    (resize_if_large resampleNearest imgTall 1536).height = 2000 := by
  refine ⟨by decide, ?_, ?_⟩
  · unfold resize_if_large
    simp [imgTall]
  · unfold resize_if_large
    simp [imgTall]

/-- C8 (amended): `resize_if_large` keys on the width alone — an image whose
width is at most `max_size` is returned unchanged (pixel-identical), and an
image whose width exceeds `max_size` is resampled to exactly
`max_size × max_size` (for any resampler honouring PIL's size contract).
For square images this coincides with the claim's wording. -/
theorem resize_if_large_spec (resample : Img → Nat → Nat → Img)
    (hres : ∀ i w h, (resample i w h).width = w ∧ (resample i w h).height = h)
    (image : Img) (max_size : Nat) :
    (image.width ≤ max_size → resize_if_large resample image max_size = image) ∧
    (max_size < image.width →
      (resize_if_large resample image max_size).width = max_size ∧
      (resize_if_large resample image max_size).height = max_size) := by
  constructor
  · intro h
    unfold resize_if_large
    simp [h]
  · intro h
    unfold resize_if_large
    simp [Nat.not_le.mpr h, hres]

/-- Witness for C8's amended theorem at concrete inputs. -/
theorem resize_if_large_spec_witness :
    resize_if_large resampleNearest imgWide 3 = imgWide ∧
    (resize_if_large resampleNearest imgWide 1).width = 1 :=
  ⟨(resize_if_large_spec resampleNearest (fun _ _ _ => ⟨rfl, rfl⟩) imgWide 3).1
     (by decide),
   ((resize_if_large_spec resampleNearest (fun _ _ _ => ⟨rfl, rfl⟩) imgWide 1).2
     (by decide)).1⟩

/-! ## Sheet gathering — src/training/generate_sheet.py

The work directory is a listing of named entries (files or
sub-directories); `trash/` contents are tracked separately as the list of
file names moved into it.  `os.path.join(work_dir, f)` is embedded as
`work_dir ++ "/" ++ f`.
-/

inductive EntryKind where
  | file
  | dir
deriving DecidableEq, Repr

structure Entry where
  name : String
  kind : EntryKind
deriving DecidableEq, Repr

/-- The fixed 13-entry allow-list at the top of `gather_sheet_images`. -/
def selected_images_base : List String :=
  [ "upscaled_multiview_1.png",
    "upscaled_multiview_2.png",
    "upscaled_multiview_3.png",
    "upscaled_multiview_4.png",
    "upscaled_multiview_5.png",
    "face_upscaled.png",
    "original.png",
    "upscaled_lighting_0.png",
    "upscaled_lighting_1.png",
    "upscaled_lighting_2.png",
    "upscaled_lighting_3.png",
    "upscaled_emotions_1.png",
    "upscaled_emotions_3.png" ]

/-- The `image_extensions` list of `gather_sheet_images`. -/
def image_extensions : List String :=
  [".png", ".jpg", ".jpeg", ".gif", ".bmp", ".webp"]

/-- ASCII lower-casing of one character (`str.lower` on the ASCII
filenames involved here). -/
def lowerChar (c : Char) : Char :=
  if 'A' ≤ c ∧ c ≤ 'Z' then Char.ofNat (c.toNat + 32) else c

/-- `str.lower()` over the string's characters. -/
def toLowerStr (s : String) : String :=
  String.mk (s.data.map lowerChar)

/-- `str.endswith(suffix)`. -/
def strEndsWith (s suff : String) : Bool :=
  decide (s.data.drop (s.data.length - suff.data.length) = suff.data)

/-- `any(file.lower().endswith(ext) for ext in image_extensions)`. -/
def isImageFile (name : String) : Bool :=
  image_extensions.any (fun ext => strEndsWith (toLowerStr name) ext)

/-- `os.path.basename` (POSIX). -/
def basename (p : String) : String :=
  (p.splitOn "/").getLastD ""

/-- `os.makedirs(trash_dir, exist_ok=True)`: raises `FileExistsError` if a
plain file named `trash` is in the way; creates the directory only when it
is not already present. -/
def makeTrashDir (entries : List Entry) : Except String (List Entry) :=
  if (Entry.mk "trash" EntryKind.file) ∈ entries then
    Except.error "FileExistsError"
  else if (Entry.mk "trash" EntryKind.dir) ∈ entries then
    Except.ok entries
  else
    Except.ok (entries ++ [Entry.mk "trash" EntryKind.dir])

/-- The move loop of `gather_sheet_images`: directories and non-image files
are skipped; image files not in the selection are renamed into `trash/`.
Returns the entries left in the work directory and the moved file names. -/
def moveNonSelected (selected : List String) :
    List Entry → List Entry × List String
  | [] => ([], [])
  | e :: rest =>
    let (keep, moved) := moveNonSelected selected rest
    if e.kind = EntryKind.dir ∨ isImageFile e.name = false then
      (e :: keep, moved)
    else if e.name ∈ selected then
      (e :: keep, moved)
    else
      (keep, e.name :: moved)

/-- The final selection loop of `gather_sheet_images`: walks `selected` in
order, skipping names already seen and names whose path does not exist in
the directory. -/
def selectExisting (entries : List Entry) :
    List String → List String → List String
  | [], _ => []
  | img :: rest, seen =>
    if img ∈ seen then
      selectExisting entries rest seen
    else if entries.any (fun e => e.name = img) then
      img :: selectExisting entries rest (img :: seen)
    else
      selectExisting entries rest seen

/-- Embedding of `gather_sheet_images(work_dir, pulid_image_paths)`.
Returns the selected sheet-image paths, the entries remaining in the work
directory, and the names moved into `trash/`.  `if pulid_image_paths:` is
Python truthiness: `None` and the empty list both skip the extension. -/
def gather_sheet_images (work_dir : String) (entries : List Entry)
    (pulid_image_paths : Option (List String)) :
    Except String (List String × List Entry × List String) :=
  let selected := selected_images_base ++
    (match pulid_image_paths with
     | some ps => if ps.isEmpty then [] else ps.map basename
     | none => [])
  match makeTrashDir entries with
  | Except.error e => Except.error e
  | Except.ok entries1 =>
    let km := moveNonSelected selected entries1
    let names := selectExisting km.1 selected []
    Except.ok (names.map (fun img => work_dir ++ "/" ++ img), km.1, km.2)

/-- The key list of the dict literal written by `create_image_info_json`,
in insertion order (descriptions omitted: no claim concerns them). -/
def image_info_keys : List String :=
  [ "upscaled_multiview_1.png",
    "upscaled_multiview_2.png",
    "upscaled_multiview_3.png",
    "upscaled_multiview_4.png",
    "upscaled_multiview_5.png",
    "face_upscaled.png",
    "original.png",
    "upscaled_lighting_0.png",
    "upscaled_lighting_1.png",
    "upscaled_lighting_2.png",
    "upscaled_lighting_3.png",
    "upscaled_emotions_1.png",
    "upscaled_emotions_3.png",
    "upscaled_emotions_2.png",
    "upscaled_emotions_4.png" ]

/-- An entry survives the move loop iff it is a directory, a non-image
file, or an allow-listed image. -/
def keptEntry (selected : List String) (e : Entry) : Prop :=
  e.kind = EntryKind.dir ∨ isImageFile e.name = false ∨ e.name ∈ selected

instance (selected : List String) : DecidablePred (keptEntry selected) :=
  fun e => by unfold keptEntry; infer_instance

theorem moveNonSelected_eq (selected : List String) (l : List Entry) :
    moveNonSelected selected l =
      (l.filter (fun e => keptEntry selected e),
       (l.filter (fun e => ¬ keptEntry selected e)).map Entry.name) := by
  induction l with
  | nil => rfl
  | cons e rest ih =>
    by_cases h1 : e.kind = EntryKind.dir ∨ isImageFile e.name = false
    · have hk : keptEntry selected e := by
        rcases h1 with h | h
        · exact Or.inl h
        · exact Or.inr (Or.inl h)
      simp [moveNonSelected, ih, h1, hk, List.filter_cons]
    · by_cases h2 : e.name ∈ selected
      · have hk : keptEntry selected e := Or.inr (Or.inr h2)
        simp [moveNonSelected, ih, h1, h2, hk, List.filter_cons]
      · have hk : ¬ keptEntry selected e := by
          intro hc
          rcases hc with h | h | h
          · exact h1 (Or.inl h)
          · exact h1 (Or.inr h)
          · exact h2 h
        simp [moveNonSelected, ih, h1, h2, hk, List.filter_cons]

theorem makeTrashDir_ok (entries : List Entry)
    (htf : Entry.mk "trash" EntryKind.file ∉ entries) :
    ∃ entries1, makeTrashDir entries = Except.ok entries1 ∧
      (entries1 = entries ∨
       entries1 = entries ++ [Entry.mk "trash" EntryKind.dir]) := by
  unfold makeTrashDir
  rw [if_neg htf]
  by_cases hd : Entry.mk "trash" EntryKind.dir ∈ entries
  · exact ⟨entries, by rw [if_pos hd], Or.inl rfl⟩
  · exact ⟨entries ++ [Entry.mk "trash" EntryKind.dir], by rw [if_neg hd],
      Or.inr rfl⟩

theorem selectExisting_sound (entries : List Entry) (sel seen : List String) :
    ∀ img ∈ selectExisting entries sel seen, ∃ e ∈ entries, e.name = img := by
  induction sel generalizing seen with
  | nil => intro img h; simp [selectExisting] at h
  | cons s rest ih =>
    intro img h
    unfold selectExisting at h
    by_cases h1 : s ∈ seen
    · rw [if_pos h1] at h
      exact ih seen img h
    · rw [if_neg h1] at h
      by_cases h2 : entries.any (fun e => e.name = s) = true
      · rw [if_pos h2] at h
        rcases List.mem_cons.mp h with h | h
        · subst h
          rcases List.any_eq_true.mp h2 with ⟨e, he, hn⟩
          exact ⟨e, he, by simpa using hn⟩
        · exact ih (s :: seen) img h
      · rw [if_neg h2] at h
        exact ih seen img h

theorem selectExisting_complete (entries : List Entry) (sel seen : List String)
    (hnd : sel.Nodup) (hseen : ∀ s ∈ sel, s ∉ seen)
    (hex : ∀ s ∈ sel, ∃ e ∈ entries, e.name = s) :
    selectExisting entries sel seen = sel := by
  induction sel generalizing seen with
  | nil => rfl
  | cons s rest ih =>
    have h1 : s ∉ seen := hseen s (List.mem_cons_self s rest)
    have h2 : entries.any (fun e => e.name = s) = true := by
      rcases hex s (List.mem_cons_self s rest) with ⟨e, he, hn⟩
      exact List.any_eq_true.mpr ⟨e, he, by simpa using hn⟩
    unfold selectExisting
    rw [if_neg h1, if_pos h2]
    have hrest : selectExisting entries rest (s :: seen) = rest := by
      refine ih (s :: seen) (List.Nodup.of_cons hnd) ?_ ?_
      · intro t ht
        intro hc
        rcases List.mem_cons.mp hc with h | h
        · subst h
          exact (List.nodup_cons.mp hnd).1 ht
        · exact hseen t (List.mem_cons_of_mem s ht) h
      · intro t ht
        exact hex t (List.mem_cons_of_mem s ht)
    rw [hrest]

/-- C1: with the full allow-list present as files and no file blocking
`trash/`, `gather_sheet_images` (no augmentation paths) returns exactly the
13 allow-listed paths in the documented order, moves exactly the non-listed
image files into `trash/` (their names — `moved` — are what lands there;
the entries are renamed, not deleted), and leaves every directory,
non-image file and allow-listed file in the work directory. -/
theorem gather_sheet_images_spec (work_dir : String) (entries : List Entry)
    (hsel : ∀ s ∈ selected_images_base, Entry.mk s EntryKind.file ∈ entries)
    (htf : Entry.mk "trash" EntryKind.file ∉ entries) :
    ∃ keep moved,
      gather_sheet_images work_dir entries none =
        Except.ok (selected_images_base.map (fun img => work_dir ++ "/" ++ img),
          keep, moved) ∧
      moved = (entries.filter
        (fun e => ¬ keptEntry selected_images_base e)).map Entry.name ∧
      (∀ e ∈ entries, keptEntry selected_images_base e → e ∈ keep) ∧
      (∀ e ∈ keep, e ∈ entries ∨ e = Entry.mk "trash" EntryKind.dir) := by
  rcases makeTrashDir_ok entries htf with ⟨entries1, hmk, hcases⟩
  have htd_kept : keptEntry selected_images_base (Entry.mk "trash" EntryKind.dir) :=
    Or.inl rfl
  have hsub : ∀ e ∈ entries, e ∈ entries1 := by
    rcases hcases with h | h
    · intro e he; rw [h]; exact he
    · intro e he; rw [h]; exact List.mem_append_left _ he
  have hsup : ∀ e ∈ entries1, e ∈ entries ∨ e = Entry.mk "trash" EntryKind.dir := by
    rcases hcases with h | h
    · intro e he; rw [h] at he; exact Or.inl he
    · intro e he
      rw [h] at he
      rcases List.mem_append.mp he with h1 | h1
      · exact Or.inl h1
      · simp at h1
        exact Or.inr h1
  have hfilter_eq :
      entries1.filter (fun e => ¬ keptEntry selected_images_base e)
        = entries.filter (fun e => ¬ keptEntry selected_images_base e) := by
    rcases hcases with h | h
    · rw [h]
    · rw [h, List.filter_append]
      have : ([Entry.mk "trash" EntryKind.dir].filter
          (fun e => ¬ keptEntry selected_images_base e)) = [] := by
        simp [List.filter, htd_kept]
      rw [this, List.append_nil]
  have hmove := moveNonSelected_eq selected_images_base entries1
  set keep := entries1.filter (fun e => keptEntry selected_images_base e) with hkeep
  have hnames : selectExisting keep selected_images_base [] = selected_images_base := by
    apply selectExisting_complete
    · decide
    · intro s _
      simp
    · intro s hs
      refine ⟨Entry.mk s EntryKind.file, ?_, rfl⟩
      rw [hkeep]
      exact List.mem_filter.mpr ⟨hsub _ (hsel s hs), by
        simpa using Or.inr (Or.inr hs)⟩
  refine ⟨keep,
    (entries1.filter (fun e => ¬ keptEntry selected_images_base e)).map Entry.name,
    ?_, ?_, ?_, ?_⟩
  · unfold gather_sheet_images
    rw [hmk]
    simp only [List.append_nil, hmove, hnames]
  · rw [hfilter_eq]
  · intro e he hk
    rw [hkeep]
    exact List.mem_filter.mpr ⟨hsub e he, by simpa using hk⟩
  · intro e he
    rw [hkeep] at he
    exact hsup e (List.mem_filter.mp he).1

/-- A work directory holding the full allow-list plus two stray images, a
sub-directory and a text file. -/
def entriesC1 : List Entry :=
  selected_images_base.map (fun s => Entry.mk s EntryKind.file) ++
    [ Entry.mk "extra_1.jpg" EntryKind.file,
      Entry.mk "extra_2.png" EntryKind.file,
      Entry.mk "multiview" EntryKind.dir,
      Entry.mk "notes.txt" EntryKind.file ]

/-- Witness for C1 on the concrete directory `entriesC1`. -/
theorem gather_sheet_images_spec_witness :
    ∃ keep moved,
      gather_sheet_images "wd" entriesC1 none =
        Except.ok (selected_images_base.map (fun img => "wd" ++ "/" ++ img),
          keep, moved) ∧
      moved = (entriesC1.filter
        (fun e => ¬ keptEntry selected_images_base e)).map Entry.name ∧
      (∀ e ∈ entriesC1, keptEntry selected_images_base e → e ∈ keep) ∧
      (∀ e ∈ keep, e ∈ entriesC1 ∨ e = Entry.mk "trash" EntryKind.dir) :=
  gather_sheet_images_spec "wd" entriesC1 (by decide) (by decide)

/-- C2 counterexample: the dict written by `create_image_info_json` has 15
keys, among them `upscaled_emotions_2.png`, which is not one of the 13
canonical sheet keys. -/
theorem image_info_keys_counterexample :
    "upscaled_emotions_2.png" ∈ image_info_keys ∧
    "upscaled_emotions_2.png" ∉ selected_images_base ∧
    image_info_keys.length = 15 := by
  decide

/-- C2 (amended): `image_info.json` always contains the 13 canonical keys
followed by `upscaled_emotions_2.png` and `upscaled_emotions_4.png` — 15
distinct keys in total — independent of `pulidflux_images`. -/
theorem image_info_keys_spec :
    image_info_keys = selected_images_base ++
      ["upscaled_emotions_2.png", "upscaled_emotions_4.png"] ∧
    image_info_keys.length = 15 ∧ image_info_keys.Nodup := by
  decide

/-- The 13 allow-listed files with `upscaled_multiview_1.png` (the head of
the allow-list) missing from the directory. -/
def entriesMissing : List Entry :=
  selected_images_base.tail.map (fun s => Entry.mk s EntryKind.file)

/-- C3 counterexample: with `upscaled_multiview_1.png` absent,
`gather_sheet_images` succeeds (no hard failure), silently returning only
the 12 remaining paths, while `image_info.json` still references the
missing file. -/
theorem missing_file_counterexample :
    gather_sheet_images "wd" entriesMissing none =
      Except.ok (selected_images_base.tail.map (fun img => "wd" ++ "/" ++ img),
        entriesMissing ++ [Entry.mk "trash" EntryKind.dir], []) ∧
    "upscaled_multiview_1.png" ∈ image_info_keys ∧
    Entry.mk "upscaled_multiview_1.png" EntryKind.file ∉ entriesMissing := by
  refine ⟨by rfl, by decide, by decide⟩

/-- C3 (amended): every entry of the selected-sheet-images list returned by
`gather_sheet_images` does exist in the work directory (the list is
existence-filtered), but a missing allow-listed file is silently omitted
rather than raising, and `image_info.json` references its fixed key set
unconditionally. -/
theorem gather_sheet_images_existing (work_dir : String) (entries : List Entry)
    (pulid : Option (List String))
    (htf : Entry.mk "trash" EntryKind.file ∉ entries) :
    ∃ r, gather_sheet_images work_dir entries pulid = Except.ok r ∧
      ∀ p ∈ r.1, ∃ e ∈ r.2.1, work_dir ++ "/" ++ e.name = p := by
  rcases makeTrashDir_ok entries htf with ⟨entries1, hmk, _⟩
  unfold gather_sheet_images
  rw [hmk]
  refine ⟨_, rfl, ?_⟩
  intro p hp
  rcases List.mem_map.mp hp with ⟨img, himg, rfl⟩
  rcases selectExisting_sound _ _ _ img himg with ⟨e, he, hname⟩
  exact ⟨e, he, by rw [hname]⟩

/-- Witness for C3's amended theorem on the deficient directory. -/
theorem gather_sheet_images_existing_witness :
    ∃ r, gather_sheet_images "wd" entriesMissing none = Except.ok r ∧
      ∀ p ∈ r.1, ∃ e ∈ r.2.1, "wd" ++ "/" ++ e.name = p :=
  gather_sheet_images_existing "wd" entriesMissing none (by decide)

/-! ## Workflow model singletons —
src/training/workflows/upscale_grid_image.py and
src/training/workflows/emotion_lighting.py

Each module holds one module-level global (`COMFYUI_UPSCALE_MODELS`,
`COMFY_EMOTION_LIGHTING_MODELS`), `None` until `initialize_*` assigns the
dict returned by `load_models()`.  Model handles are opaque `Nat`s; each
sub-model load is an oracle that either yields a handle or raises.  The
pair of globals is the `ModelState`; functions return the Python result
(`Except`) together with the state after the call, so an exception thrown
mid-load leaves the state exactly as the source does.
-/

/-- The dict returned by `upscale_grid_image.load_models` (one field per
key, populated only all-at-once by the single `return`). -/
structure UpscaleModels where
  checkpointloadersimple_48 : Nat
  pulidfluxmodelloader_44 : Nat
  pulidfluxevacliploader_45 : Nat
  pulidfluxinsightfaceloader_46 : Nat
  controlnetloader_49 : Nat
  coremldetailerhookprovider_57 : Nat
  ultralyticsdetectorprovider_66 : Nat
  upscalemodelloader_69 : Nat
deriving DecidableEq, Repr

/-- The dict returned by `emotion_lighting.load_models`. -/
structure EmotionModels where
  flux_model : Nat
  photon_model : Nat
  loadandapplyiclightunet_723 : Nat
  modelpassthrough_1038 : Nat
deriving DecidableEq, Repr

/-- The two module-level globals. -/
structure ModelState where
  upscaleModels : Option UpscaleModels
  emotionModels : Option EmotionModels
deriving DecidableEq, Repr

/-- One outcome per sub-model load call (the external Comfy loaders). -/
structure LoadOracle where
  importNodes : Except String Unit
  checkpoint48 : Except String Nat
  pulidModel : Except String Nat
  evaClip : Except String Nat
  insightface : Except String Nat
  controlnet : Except String Nat
  coreml : Except String Nat
  ultralytics : Except String Nat
  upscaler : Except String Nat
  photon : Except String Nat
  iclightOf : Nat → Except String Nat
  passthroughOf : Nat → Except String Nat

/-- `upscale_grid_image.load_models`: eight sequential loads; any raise
propagates before the dict is built. -/
def load_upscale_models (o : LoadOracle) : Except String UpscaleModels := do
  let c48 ← o.checkpoint48
  let pm ← o.pulidModel
  let ec ← o.evaClip
  let insf ← o.insightface
  let cn ← o.controlnet
  let cm ← o.coreml
  let ul ← o.ultralytics
  let up ← o.upscaler
  pure { checkpointloadersimple_48 := c48
         pulidfluxmodelloader_44 := pm
         pulidfluxevacliploader_45 := ec
         pulidfluxinsightfaceloader_46 := insf
         controlnetloader_49 := cn
         coremldetailerhookprovider_57 := cm
         ultralyticsdetectorprovider_66 := ul
         upscalemodelloader_69 := up }

/-- `upscale_grid_image.initialize_upscale_models`: no-op when the global
is set; otherwise `import_custom_nodes()` then assign `load_models()`. -/
def initialize_upscale_models (o : LoadOracle) (st : ModelState) :
    Except String Unit × ModelState :=
  match st.upscaleModels with
  | some _ => (Except.ok (), st)
  | none =>
    match o.importNodes with
    | Except.error e => (Except.error e, st)
    | Except.ok _ =>
      match load_upscale_models o with
      | Except.error e => (Except.error e, st)
      | Except.ok m => (Except.ok (), { st with upscaleModels := some m })

/-- `emotion_lighting.load_models`: first ensures the upscale singleton,
checks it is set, then loads photon, the IC-Light unet (on the photon
model) and the passthrough (on the flux model); the dict is built only by
the final `return`. -/
def load_emotion_models (o : LoadOracle) (st : ModelState) :
    Except String EmotionModels × ModelState :=
  match initialize_upscale_models o st with
  | (Except.error e, st1) => (Except.error e, st1)
  | (Except.ok _, st1) =>
    match st1.upscaleModels with
    | none => (Except.error
        "Failed to initialize upscale models. COMFYUI_UPSCALE_MODELS is None.",
        st1)
    | some um =>
      match o.photon with
      | Except.error e => (Except.error e, st1)
      | Except.ok ph =>
        match o.iclightOf ph with
        | Except.error e => (Except.error e, st1)
        | Except.ok ic =>
          match o.passthroughOf um.checkpointloadersimple_48 with
          | Except.error e => (Except.error e, st1)
          | Except.ok pt =>
            (Except.ok { flux_model := um.checkpointloadersimple_48
                         photon_model := ph
                         loadandapplyiclightunet_723 := ic
                         modelpassthrough_1038 := pt }, st1)

/-- `emotion_lighting.initialize_emotion_lighting_models`. -/
def initialize_emotion_lighting_models (o : LoadOracle) (st : ModelState) :
    Except String Unit × ModelState :=
  match st.emotionModels with
  | some _ => (Except.ok (), st)
  | none =>
    match o.importNodes with
    | Except.error e => (Except.error e, st)
    | Except.ok _ =>
      match load_emotion_models o st with
      | (Except.error e, st1) => (Except.error e, st1)
      | (Except.ok m, st1) => (Except.ok (), { st1 with emotionModels := some m })

/-- An oracle all of whose loads succeed. -/
def LoadOracle.allOk (o : LoadOracle) : Prop :=
  (∃ u, o.importNodes = Except.ok u) ∧
  (∃ n, o.checkpoint48 = Except.ok n) ∧
  (∃ n, o.pulidModel = Except.ok n) ∧
  (∃ n, o.evaClip = Except.ok n) ∧
  (∃ n, o.insightface = Except.ok n) ∧
  (∃ n, o.controlnet = Except.ok n) ∧
  (∃ n, o.coreml = Except.ok n) ∧
  (∃ n, o.ultralytics = Except.ok n) ∧
  (∃ n, o.upscaler = Except.ok n) ∧
  (∃ n, o.photon = Except.ok n) ∧
  (∀ m, ∃ n, o.iclightOf m = Except.ok n) ∧
  (∀ m, ∃ n, o.passthroughOf m = Except.ok n)

theorem initialize_upscale_models_preserves_emotion (o : LoadOracle)
    (st : ModelState) :
    (initialize_upscale_models o st).2.emotionModels = st.emotionModels := by
  unfold initialize_upscale_models
  split
  · rfl
  · split
    · rfl
    · split
      · rfl
      · rfl

theorem initialize_upscale_models_error (o : LoadOracle) (st : ModelState)
    (e : String)
    (h : (initialize_upscale_models o st).1 = Except.error e) :
    (initialize_upscale_models o st).2 = st := by
  revert h
  unfold initialize_upscale_models
  split
  · intro h; simp at h
  · split
    · intro _; rfl
    · split
      · intro _; rfl
      · intro h; simp at h

theorem load_emotion_models_state (o : LoadOracle) (st : ModelState) :
    (load_emotion_models o st).2.emotionModels = st.emotionModels := by
  have hinit := initialize_upscale_models_preserves_emotion o st
  unfold load_emotion_models
  rcases hi : initialize_upscale_models o st with ⟨ri, sti⟩
  rw [hi] at hinit
  cases ri with
  | error e => simpa using hinit
  | ok u =>
    simp only
    split
    · simpa using hinit
    · split
      · simpa using hinit
      · split
        · simpa using hinit
        · split
          · simpa using hinit
          · simpa using hinit

theorem initialize_emotion_lighting_models_error (o : LoadOracle)
    (st : ModelState) (e : String)
    (h : (initialize_emotion_lighting_models o st).1 = Except.error e) :
    (initialize_emotion_lighting_models o st).2.emotionModels
      = st.emotionModels := by
  revert h
  unfold initialize_emotion_lighting_models
  split
  · intro h; simp at h
  · split
    · intro _; rfl
    · split
      · next er st1 heq =>
        intro _
        have hload := load_emotion_models_state o st
        rw [heq] at hload
        simpa using hload
      · intro h; simp at h

/-- C4: if a workflow singleton's initialize fails partway through the
load sequence, the module-level global it guards stays `None` (never a
half-populated mapping — the dict is assigned only whole, after the last
sub-load), for both the emotion/lighting and the upscale singleton; a
later initialize call on the still-`None` global therefore redoes the full
load and, when every sub-load then succeeds, sets a fully populated
mapping. -/
theorem initialize_midload_failure_spec (o : LoadOracle) (st : ModelState) :
    (∀ e, st.emotionModels = none →
      (initialize_emotion_lighting_models o st).1 = Except.error e →
      (initialize_emotion_lighting_models o st).2.emotionModels = none) ∧
    (∀ e, st.upscaleModels = none →
      (initialize_upscale_models o st).1 = Except.error e →
      (initialize_upscale_models o st).2.upscaleModels = none) ∧
    (∀ o2 st2, st2.emotionModels = none → LoadOracle.allOk o2 →
      ∃ m st3, initialize_emotion_lighting_models o2 st2 = (Except.ok (), st3) ∧
        st3.emotionModels = some m) ∧
    (∀ o2 st2, st2.upscaleModels = none → LoadOracle.allOk o2 →
      ∃ m st3, initialize_upscale_models o2 st2 = (Except.ok (), st3) ∧
        st3.upscaleModels = some m) := by
  refine ⟨?_, ?_, ?_, ?_⟩
  · intro e hn herr
    rw [initialize_emotion_lighting_models_error o st e herr]
    exact hn
  · intro e hn herr
    rw [initialize_upscale_models_error o st e herr]
    exact hn
  · intro o2 st2 hn hok
    obtain ⟨⟨u, hu⟩, ⟨n48, h48⟩, ⟨npm, hpm⟩, ⟨nec, hec⟩, ⟨nif, hif⟩,
      ⟨ncn, hcn⟩, ⟨ncm, hcm⟩, ⟨nul, hul⟩, ⟨nup, hup⟩, ⟨nph, hph⟩,
      hic, hpt⟩ := hok
    cases hum : st2.upscaleModels with
    | some um =>
      obtain ⟨nic, hic2⟩ := hic nph
      obtain ⟨npt, hpt2⟩ := hpt um.checkpointloadersimple_48
      unfold initialize_emotion_lighting_models load_emotion_models
        initialize_upscale_models
      simp only [hn, hum, hu, hph, hic2, hpt2]
      exact ⟨_, _, rfl, rfl⟩
    | none =>
      have hload : load_upscale_models o2 = Except.ok
          { checkpointloadersimple_48 := n48
            pulidfluxmodelloader_44 := npm
            pulidfluxevacliploader_45 := nec
            pulidfluxinsightfaceloader_46 := nif
            controlnetloader_49 := ncn
            coremldetailerhookprovider_57 := ncm
            ultralyticsdetectorprovider_66 := nul
            upscalemodelloader_69 := nup } := by
        unfold load_upscale_models
        rw [h48, hpm, hec, hif, hcn, hcm, hul, hup]
        rfl
      obtain ⟨nic, hic2⟩ := hic nph
      obtain ⟨npt, hpt2⟩ := hpt n48
      unfold initialize_emotion_lighting_models load_emotion_models
        initialize_upscale_models
      simp only [hn, hum, hu, hload, hph, hic2, hpt2]
      exact ⟨_, _, rfl, rfl⟩
  · intro o2 st2 hn hok
    obtain ⟨⟨u, hu⟩, ⟨n48, h48⟩, ⟨npm, hpm⟩, ⟨nec, hec⟩, ⟨nif, hif⟩,
      ⟨ncn, hcn⟩, ⟨ncm, hcm⟩, ⟨nul, hul⟩, ⟨nup, hup⟩, _, _, _⟩ := hok
    have hload : load_upscale_models o2 = Except.ok
        { checkpointloadersimple_48 := n48
          pulidfluxmodelloader_44 := npm
          pulidfluxevacliploader_45 := nec
          pulidfluxinsightfaceloader_46 := nif
          controlnetloader_49 := ncn
          coremldetailerhookprovider_57 := ncm
          ultralyticsdetectorprovider_66 := nul
          upscalemodelloader_69 := nup } := by
      unfold load_upscale_models
      rw [h48, hpm, hec, hif, hcn, hcm, hul, hup]
      rfl
    unfold initialize_upscale_models
    simp only [hn, hu, hload]
    exact ⟨_, _, rfl, rfl⟩

/-- An oracle whose photon-checkpoint load throws and all other loads
succeed: the emotion/lighting load fails after the upscale singleton was
already set. -/
def oPhotonFail : LoadOracle :=
  { importNodes := Except.ok ()
    checkpoint48 := Except.ok 1
    pulidModel := Except.ok 2
    evaClip := Except.ok 3
    insightface := Except.ok 4
    controlnet := Except.ok 5
    coreml := Except.ok 6
    ultralytics := Except.ok 7
    upscaler := Except.ok 8
    photon := Except.error "photon checkpoint load failed"
    iclightOf := fun _ => Except.ok 9
    passthroughOf := fun _ => Except.ok 10 }

/-- An oracle all of whose loads succeed. -/
def oAllOk : LoadOracle :=
  { oPhotonFail with photon := Except.ok 11 }

/-- Witness for C4: `oPhotonFail` fails mid-load, the emotion singleton
stays `None`, and a retry with `oAllOk` fully populates it. -/
theorem initialize_midload_failure_spec_witness :
    (initialize_emotion_lighting_models oPhotonFail
      { upscaleModels := none, emotionModels := none }).2.emotionModels = none ∧
    (∃ m st3, initialize_emotion_lighting_models oAllOk
        (initialize_emotion_lighting_models oPhotonFail
          { upscaleModels := none, emotionModels := none }).2
        = (Except.ok (), st3) ∧ st3.emotionModels = some m) :=
  ⟨(initialize_midload_failure_spec oPhotonFail
      { upscaleModels := none, emotionModels := none }).1
      "photon checkpoint load failed" rfl rfl,
   (initialize_midload_failure_spec oPhotonFail
      { upscaleModels := none, emotionModels := none }).2.2.1 oAllOk _
      ((initialize_midload_failure_spec oPhotonFail
        { upscaleModels := none, emotionModels := none }).1
        "photon checkpoint load failed" rfl rfl)
      ⟨⟨(), rfl⟩, ⟨1, rfl⟩, ⟨2, rfl⟩, ⟨3, rfl⟩, ⟨4, rfl⟩, ⟨5, rfl⟩,
       ⟨6, rfl⟩, ⟨7, rfl⟩, ⟨8, rfl⟩, ⟨11, rfl⟩,
       fun _ => ⟨9, rfl⟩, fun _ => ⟨10, rfl⟩⟩⟩

/-! ## Safety gate — src/inference/safety.py and
`LoRAImageGen.check_safety` in src/test_character.py

Image files on disk are an association list from path to content; a
content is either a generated image (with its size and an identifier for
its pixel data) or the `create_blank_image` placeholder.  The NSFW
classifier pipeline inside `SafetyChecker.check`'s `try` block (open /
decode / processor / model forward) is an oracle per input returning the
predicted label or raising.
-/

inductive FileImg where
  | generated (w h : Nat) (id : Nat)
  | placeholder (w h : Nat)
deriving DecidableEq, Repr

/-- `(width, height)` of a stored image. -/
def fileDims : FileImg → Nat × Nat
  | FileImg.generated w h _ => (w, h)
  | FileImg.placeholder w h => (w, h)

/-- Overwrite-or-create a file (what `PIL.Image.save` does at a path). -/
def setFile : List (String × FileImg) → String → FileImg →
    List (String × FileImg)
  | [], p, c => [(p, c)]
  | (q, d) :: rest, p, c =>
    if q = p then (p, c) :: rest else (q, d) :: setFile rest p c

/-- Read a file (`None` when the path does not exist). -/
def getFile (store : List (String × FileImg)) (p : String) : Option FileImg :=
  match store.find? (fun e => e.1 = p) with
  | some e => some e.2
  | none => none

/-- `safety.create_blank_image(file_path, width, height)`: writes the
light-gray "Content Filtered for Safety" placeholder of exactly the given
dimensions over the path. -/
def create_blank_image (store : List (String × FileImg)) (file_path : String)
    (width height : Nat) : List (String × FileImg) :=
  setFile store file_path (FileImg.placeholder width height)

/-- The classification body of `SafetyChecker.check` after a successful
load/decode/forward: `predicted_label.lower() == "nsfw"`; an exception
anywhere in the `try` block yields `False` ("assuming safe"). -/
def safety_label_check (outcome : Except String String) : Bool :=
  match outcome with
  | Except.error _ => false
  | Except.ok lbl => decide (toLowerStr lbl = "nsfw")

namespace SafetyChecker

/-- `SafetyChecker.check`: when not yet prepared, `prepare()` runs first
and its exceptions propagate (they are outside the `try`); afterwards the
whole classification is guarded and any exception returns `False`. -/
def check (is_prepared : Bool) (prepareResult : Except String Unit)
    (outcome : Except String String) : Except String Bool :=
  if is_prepared then Except.ok (safety_label_check outcome)
  else
    match prepareResult with
    | Except.error e => Except.error e
    | Except.ok _ => Except.ok (safety_label_check outcome)

/-- `SafetyChecker.check_multiple` on a prepared checker: one `check` per
file, collected in order. -/
def check_multiple (outcomes : String → Except String String)
    (files : List String) : List Bool :=
  files.map (fun f => safety_label_check (outcomes f))

end SafetyChecker

/-- The replacement loop of `LoRAImageGen.check_safety`: walk the
(file, violation) pairs in order and overwrite each flagged file with a
`test_dim × test_dim` placeholder. -/
def replaceFlagged (d : Nat) : List (String × Bool) →
    List (String × FileImg) → List (String × FileImg)
  | [], st => st
  | (f, v) :: rest, st =>
    replaceFlagged d rest (if v then create_blank_image st f d d else st)

/-- `LoRAImageGen.check_safety(generated_files, prompt, test_dim)`:
classify every file, overwrite the flagged ones in place, return the
violation list. -/
def check_safety (outcomes : String → Except String String)
    (generated_files : List String) (test_dim : Nat)
    (store : List (String × FileImg)) :
    List Bool × List (String × FileImg) :=
  let violations := SafetyChecker.check_multiple outcomes generated_files
  (violations, replaceFlagged test_dim (generated_files.zip violations) store)

theorem getFile_setFile_same (store : List (String × FileImg)) (p : String)
    (c : FileImg) : getFile (setFile store p c) p = some c := by
  induction store with
  | nil => simp [setFile, getFile, List.find?]
  | cons e rest ih =>
    rcases e with ⟨q, d⟩
    by_cases h : q = p
    · simp [setFile, h, getFile, List.find?]
    · simp only [setFile, if_neg h]
      simpa [getFile, List.find?, h] using ih

theorem getFile_setFile_other (store : List (String × FileImg))
    (p q : String) (c : FileImg) (h : q ≠ p) :
    getFile (setFile store q c) p = getFile store p := by
  induction store with
  | nil => simp [setFile, getFile, List.find?, h]
  | cons e rest ih =>
    rcases e with ⟨r, d⟩
    by_cases hr : r = q
    · subst hr
      simp [setFile, getFile, List.find?, h]
    · simp only [setFile, if_neg hr]
      by_cases hp : r = p
      · simp [getFile, List.find?, hp]
      · simpa [getFile, List.find?, hp] using ih

theorem replaceFlagged_untouched (d : Nat) (pairs : List (String × Bool))
    (store : List (String × FileImg)) (f : String)
    (h : ∀ p ∈ pairs, ¬(p.1 = f ∧ p.2 = true)) :
    getFile (replaceFlagged d pairs store) f = getFile store f := by
  induction pairs generalizing store with
  | nil => rfl
  | cons pv rest ih =>
    rcases pv with ⟨p, v⟩
    have hrest : ∀ q ∈ rest, ¬(q.1 = f ∧ q.2 = true) := by
      intro q hq
      exact h q (List.mem_cons_of_mem _ hq)
    cases v with
    | false =>
      simp only [replaceFlagged, if_neg (by decide : ¬(false = true))]
      exact ih store hrest
    | true =>
      have hp : p ≠ f := by
        intro hc
        exact h (p, true) (List.mem_cons_self _ _) ⟨hc, rfl⟩
      simp only [replaceFlagged, if_pos rfl]
      rw [ih _ hrest]
      exact getFile_setFile_other store f p _ hp

theorem replaceFlagged_flagged (d : Nat) (pairs : List (String × Bool))
    (store : List (String × FileImg)) (f : String)
    (hmem : (f, true) ∈ pairs)
    (hcoh : ∀ p ∈ pairs, p.1 = f → p.2 = true) :
    getFile (replaceFlagged d pairs store) f =
      some (FileImg.placeholder d d) := by
  induction pairs generalizing store with
  | nil => simp at hmem
  | cons pv rest ih =>
    rcases pv with ⟨p, v⟩
    have hcohr : ∀ q ∈ rest, q.1 = f → q.2 = true := by
      intro q hq
      exact hcoh q (List.mem_cons_of_mem _ hq)
    by_cases hrest : (f, true) ∈ rest
    · cases v with
      | false =>
        simp only [replaceFlagged, if_neg (by decide : ¬(false = true))]
        exact ih store hrest hcohr
      | true =>
        simp only [replaceFlagged, if_pos rfl]
        exact ih _ hrest hcohr
    · have hhead : (p, v) = (f, true) := by
        rcases List.mem_cons.mp hmem with h | h
        · exact h.symm
        · exact absurd h hrest
      have hp : p = f := by injection hhead
      have hv : v = true := by injection hhead
      subst hp; subst hv
      simp only [replaceFlagged, if_pos rfl]
      have hunt : ∀ q ∈ rest, ¬(q.1 = p ∧ q.2 = true) := by
        intro q hq hc
        exact hrest (by
          have : q = (p, true) := Prod.ext hc.1 hc.2
          rw [this] at hq
          exact hq)
      rw [replaceFlagged_untouched d rest _ p hunt]
      exact getFile_setFile_same store p _

theorem mem_zip_self_map {α β : Type} (files : List α) (pc : α → β) :
    ∀ pv ∈ files.zip (files.map pc), pv.2 = pc pv.1 ∧ pv.1 ∈ files := by
  induction files with
  | nil => intro pv h; simp at h
  | cons f rest ih =>
    intro pv h
    rcases List.mem_cons.mp h with h | h
    · subst h
      exact ⟨rfl, List.mem_cons_self _ _⟩
    · rcases ih pv h with ⟨h1, h2⟩
      exact ⟨h1, List.mem_cons_of_mem _ h2⟩

theorem self_zip_map_mem {α β : Type} (files : List α) (pc : α → β) :
    ∀ f ∈ files, (f, pc f) ∈ files.zip (files.map pc) := by
  induction files with
  | nil => intro f h; simp at h
  | cons g rest ih =>
    intro f h
    rcases List.mem_cons.mp h with h | h
    · subst h
      exact List.mem_cons_self _ _
    · exact List.mem_cons_of_mem _ (ih f h)

/-- C5: `check_safety` returns the per-file verdicts in batch order (one
per file, count preserved), overwrites exactly the flagged files with a
placeholder whose dimensions equal the generated images' (`test_dim ×
test_dim`), and leaves every non-flagged path byte-identical. -/
theorem check_safety_spec (outcomes : String → Except String String)
    (files : List String) (d : Nat) (store : List (String × FileImg))
    (hdims : ∀ f ∈ files, ∃ id,
      getFile store f = some (FileImg.generated d d id)) :
    (check_safety outcomes files d store).1 =
      files.map (fun f => safety_label_check (outcomes f)) ∧
    (check_safety outcomes files d store).1.length = files.length ∧
    (∀ f ∈ files, safety_label_check (outcomes f) = true →
      getFile (check_safety outcomes files d store).2 f =
        some (FileImg.placeholder d d)) ∧
    (∀ f, (f ∉ files ∨ safety_label_check (outcomes f) = false) →
      getFile (check_safety outcomes files d store).2 f = getFile store f) ∧
    (∀ f ∈ files,
      (getFile (check_safety outcomes files d store).2 f).map fileDims =
        (getFile store f).map fileDims) := by
  have huntouched : ∀ f,
      (f ∉ files ∨ safety_label_check (outcomes f) = false) →
      getFile (check_safety outcomes files d store).2 f = getFile store f := by
    intro f hor
    show getFile (replaceFlagged d
      (files.zip (files.map (fun g => safety_label_check (outcomes g))))
      store) f = getFile store f
    apply replaceFlagged_untouched
    intro p hp hc
    rcases mem_zip_self_map files _ p hp with ⟨h1, h2⟩
    rcases hor with hor | hor
    · exact hor (hc.1 ▸ h2)
    · rw [hc.1, hor] at h1
      rw [hc.2] at h1
      exact Bool.noConfusion h1
  have hflagged : ∀ f ∈ files, safety_label_check (outcomes f) = true →
      getFile (check_safety outcomes files d store).2 f =
        some (FileImg.placeholder d d) := by
    intro f hf hflag
    show getFile (replaceFlagged d
      (files.zip (files.map (fun g => safety_label_check (outcomes g))))
      store) f = some (FileImg.placeholder d d)
    apply replaceFlagged_flagged
    · have := self_zip_map_mem files
        (fun g => safety_label_check (outcomes g)) f hf
      simpa only [hflag] using this
    · intro p hp hpf
      rcases mem_zip_self_map files _ p hp with ⟨h1, _⟩
      rw [h1, hpf, hflag]
  refine ⟨rfl, by simp [check_safety, SafetyChecker.check_multiple],
    hflagged, huntouched, ?_⟩
  intro f hf
  by_cases hflag : safety_label_check (outcomes f) = true
  · rw [hflagged f hf hflag]
    rcases hdims f hf with ⟨id, hid⟩
    rw [hid]
    rfl
  · rw [huntouched f (Or.inr (Bool.eq_false_iff.mpr hflag))]

def filesW : List String := ["outa.jpg", "outb.jpg", "outc.jpg", "outd.jpg"]

/-- Classifier oracle flagging exactly batch indices 1 and 3. -/
def outcomesW (f : String) : Except String String :=
  if f = "outb.jpg" ∨ f = "outd.jpg" then Except.ok "nsfw"
  else Except.ok "neutral"

def storeW : List (String × FileImg) :=
  [ ("outa.jpg", FileImg.generated 64 64 0),
    ("outb.jpg", FileImg.generated 64 64 1),
    ("outc.jpg", FileImg.generated 64 64 2),
    ("outd.jpg", FileImg.generated 64 64 3) ]

/-- Witness for C5: a 4-image batch with indices 1 and 3 flagged yields
violations `[false, true, false, true]`, a placeholder at index 1 and an
untouched file at index 0. -/
theorem check_safety_spec_witness :
    (check_safety outcomesW filesW 64 storeW).1 = [false, true, false, true] ∧
    getFile (check_safety outcomesW filesW 64 storeW).2 "outb.jpg" =
      some (FileImg.placeholder 64 64) ∧
    getFile (check_safety outcomesW filesW 64 storeW).2 "outa.jpg" =
      getFile storeW "outa.jpg" := by
  have h := check_safety_spec outcomesW filesW 64 storeW
    (by intro f hf; fin_cases hf <;> exact ⟨_, rfl⟩)
  refine ⟨?_, ?_, ?_⟩
  · rw [h.1]; decide
  · exact h.2.2.1 "outb.jpg" (by decide) (by decide)
  · exact h.2.2.2.1 "outa.jpg" (Or.inr (by decide))

/-- C10: once the model is prepared, any exception from the image
load/decode/classification inside `SafetyChecker.check`'s `try` block
yields `Ok false` (fail-open, treated as safe) instead of propagating, so
`check_safety` leaves such a file untouched on disk. -/
theorem safetychecker_fails_open (prepareResult : Except String Unit)
    (outcomes : String → Except String String) (files : List String)
    (d : Nat) (store : List (String × FileImg)) (f : String) (e : String)
    (hf : f ∈ files) (herr : outcomes f = Except.error e) :
    SafetyChecker.check true prepareResult (outcomes f) = Except.ok false ∧
    safety_label_check (outcomes f) = false ∧
    getFile (check_safety outcomes files d store).2 f = getFile store f := by
  have hfalse : safety_label_check (outcomes f) = false := by
    rw [herr]
    rfl
  refine ⟨?_, hfalse, ?_⟩
  · simp [SafetyChecker.check, hfalse]
  · show getFile (replaceFlagged d
      (files.zip (files.map (fun g => safety_label_check (outcomes g))))
      store) f = getFile store f
    apply replaceFlagged_untouched
    intro p hp hc
    rcases mem_zip_self_map files _ p hp with ⟨h1, _⟩
    rw [hc.1, hfalse] at h1
    rw [hc.2] at h1
    exact Bool.noConfusion h1

/-- Classifier oracle that throws on every input. -/
def outcomesErr (f : String) : Except String String :=
  Except.error ("cannot identify image file " ++ f)

def storeErrW : List (String × FileImg) :=
  [("p.jpg", FileImg.generated 4 4 0)]

/-- Witness for C10 at a concrete undecodable file. -/
theorem safetychecker_fails_open_witness :
    SafetyChecker.check true (Except.ok ()) (outcomesErr "p.jpg") =
      Except.ok false ∧
    safety_label_check (outcomesErr "p.jpg") = false ∧
    getFile (check_safety outcomesErr ["p.jpg"] 4 storeErrW).2 "p.jpg" =
      getFile storeErrW "p.jpg" :=
  safetychecker_fails_open (Except.ok ()) outcomesErr ["p.jpg"] 4 storeErrW
    "p.jpg" ("cannot identify image file " ++ "p.jpg")
    (List.mem_cons_self _ _) rfl


/-! ## Face cropping — `crop_face` in src/training/utilities.py and its
caller in src/training/multiview.py

The RetinaFace detector returns a list of detections `[bbox, landmark,
score]`; only the score drives `crop_face`'s selection, so a detection is
an identifier plus a score.  `center_and_crop_rescale` and the PIL save
are the external calls inside the `try` block, an oracle returning the
cropped images or raising.
-/

structure Det where
  bbox : Nat
  score : Int
deriving DecidableEq, Repr

/-- Head of Python's stable `sorted(dets, key=score, reverse=True)`: the
first detection attaining the maximal score. -/
def bestDet (d : Det) : List Det → Det
  | [] => d
  | e :: rest => if d.score < e.score then bestDet e rest else bestDet d rest

/-- The value `crop_face` produces: a saved path, the `False` sentinel, or
the implicit `None` of the zero-crop fall-through. -/
inductive CropFaceResult where
  | path (p : String)
  | falseResult
  | noneResult
deriving DecidableEq, Repr

/-- Embedding of `utilities.crop_face`: zero detections return `False`;
more than one keeps only the highest-confidence detection; the crop/save
call either raises (caught, returning `False`), yields no crops (implicit
`None`), or saves and returns the joined output path on the first crop. -/
def crop_face (dets : List Det)
    (crop : List Det → Except String (List Nat))
    (output_dir output_name : String) : CropFaceResult :=
  match dets with
  | [] => CropFaceResult.falseResult
  | d :: rest =>
    let dets1 := if rest.isEmpty then [d] else [bestDet d rest]
    match crop dets1 with
    | Except.error _ => CropFaceResult.falseResult
    | Except.ok [] => CropFaceResult.noneResult
    | Except.ok (_ :: _) =>
      CropFaceResult.path (output_dir ++ "/" ++ output_name)

/-- The fallback in `create_multiview_images`: a falsy `crop_face` result
(`False`, `None` or an empty path) is replaced by the cleaned reference. -/
def face_reference_path (res : CropFaceResult)
    (cleaned_reference : String) : String :=
  match res with
  | CropFaceResult.path p => if p = "" then cleaned_reference else p
  | _ => cleaned_reference

theorem bestDet_mem (d : Det) (l : List Det) : bestDet d l ∈ d :: l := by
  induction l generalizing d with
  | nil => simp [bestDet]
  | cons e rest ih =>
    by_cases h : d.score < e.score
    · simp only [bestDet, if_pos h]
      rcases List.mem_cons.mp (ih e) with h1 | h1
      · rw [h1]
        exact List.mem_cons_of_mem _ (List.mem_cons_self _ _)
      · exact List.mem_cons_of_mem _ (List.mem_cons_of_mem _ h1)
    · simp only [bestDet, if_neg h]
      rcases List.mem_cons.mp (ih d) with h1 | h1
      · rw [h1]
        exact List.mem_cons_self _ _
      · exact List.mem_cons_of_mem _ (List.mem_cons_of_mem _ h1)

theorem bestDet_score (d : Det) (l : List Det) :
    ∀ x ∈ d :: l, x.score ≤ (bestDet d l).score := by
  induction l generalizing d with
  | nil =>
    intro x hx
    rcases List.mem_cons.mp hx with h | h
    · rw [h]
      simp [bestDet]
    · simp at h
  | cons e rest ih =>
    intro x hx
    by_cases h : d.score < e.score
    · simp only [bestDet, if_pos h]
      rcases List.mem_cons.mp hx with h1 | h1
      · rw [h1]
        exact le_trans (le_of_lt h) (ih e e (List.mem_cons_self _ _))
      · exact ih e x h1
    · simp only [bestDet, if_neg h]
      rcases List.mem_cons.mp hx with h1 | h1
      · rw [h1]
        exact ih d d (List.mem_cons_self _ _)
      · rcases List.mem_cons.mp h1 with h2 | h2
        · rw [h2]
          exact le_trans (le_of_not_lt h) (ih d d (List.mem_cons_self _ _))
        · exact ih d x (List.mem_cons_of_mem _ h2)

/-- C9: zero detections make `crop_face` return the `False` sentinel (it
is total — no exception escapes); with several detections it proceeds with
only the single highest-confidence one; and in the multiview stage any
falsy result makes the cleaned reference itself the face anchor, so the
pipeline continues. -/
theorem crop_face_spec (crop : List Det → Except String (List Nat))
    (odir oname : String) :
    crop_face [] crop odir oname = CropFaceResult.falseResult ∧
    (∀ d rest, rest ≠ [] →
      ∃ best, best ∈ d :: rest ∧ (∀ x ∈ d :: rest, x.score ≤ best.score) ∧
        crop_face (d :: rest) crop odir oname =
          (match crop [best] with
           | Except.error _ => CropFaceResult.falseResult
           | Except.ok [] => CropFaceResult.noneResult
           | Except.ok (_ :: _) =>
             CropFaceResult.path (odir ++ "/" ++ oname))) ∧
    (∀ res cleaned,
      res = CropFaceResult.falseResult ∨ res = CropFaceResult.noneResult →
      face_reference_path res cleaned = cleaned) := by
  refine ⟨rfl, ?_, ?_⟩
  · intro d rest hrest
    refine ⟨bestDet d rest, bestDet_mem d rest, bestDet_score d rest, ?_⟩
    have hne : rest.isEmpty = false := by
      cases rest with
      | nil => exact absurd rfl hrest
      | cons a l => rfl
    simp only [crop_face, hne]
    rfl
  · intro res cleaned hres
    rcases hres with h | h <;> rw [h] <;> rfl

/-- Witness for C9: three detections with the middle one strongest, and a
crop oracle that returns one crop. -/
theorem crop_face_spec_witness :
    crop_face [] (fun _ => Except.ok [1]) "wd" "face_reference.png" =
      CropFaceResult.falseResult ∧
    (∃ best, best ∈ [(⟨0, 3⟩ : Det), ⟨1, 7⟩, ⟨2, 5⟩] ∧
      (∀ x ∈ [(⟨0, 3⟩ : Det), ⟨1, 7⟩, ⟨2, 5⟩], x.score ≤ best.score) ∧
      crop_face [(⟨0, 3⟩ : Det), ⟨1, 7⟩, ⟨2, 5⟩] (fun _ => Except.ok [1])
          "wd" "face_reference.png" =
        (match (fun (_ : List Det) => Except.ok (ε := String) [1]) [best] with
         | Except.error _ => CropFaceResult.falseResult
         | Except.ok [] => CropFaceResult.noneResult
         | Except.ok (_ :: _) =>
           CropFaceResult.path ("wd" ++ "/" ++ "face_reference.png"))) ∧
    face_reference_path CropFaceResult.falseResult "wd/cleaned_reference.png" =
      "wd/cleaned_reference.png" :=
  ⟨(crop_face_spec (fun _ => Except.ok [1]) "wd" "face_reference.png").1,
   (crop_face_spec (fun _ => Except.ok [1]) "wd" "face_reference.png").2.1
     ⟨0, 3⟩ [⟨1, 7⟩, ⟨2, 5⟩] (by decide),
   (crop_face_spec (fun _ => Except.ok [1]) "wd" "face_reference.png").2.2
     CropFaceResult.falseResult "wd/cleaned_reference.png" (Or.inl rfl)⟩


/-! ## Synthetic augmentation — src/training/pulid_flux_images.py

`generate_synthetic_images` wraps everything after its environment check
in one `try/except` returning `[]`.  External behaviour is an oracle:
the `FAL_KEY` check, the result of `generate_pulidflux_prompts` (a prompt
list, or the `ValueError` it raises when `GOOGLE_API_KEY` is missing),
reading the reference image, and per (prompt index, attempt) the FAL call
outcome.  `download_image` writes the file only on HTTP 200 but the source
appends the path regardless, so the embedding returns both the path list
the function returns and the list of paths actually written to disk.
-/

/-- Outcome of one FAL `submit`/`get` call: a result with an image URL
(whose later download yields the given HTTP status), a result with no
images, or an exception (retryable iff its text matches the rate-limit /
5xx keywords). -/
inductive FalOutcome where
  | ok (downloadStatus : Nat)
  | noImages
  | err (retryable : Bool)
deriving DecidableEq, Repr

structure PulidOracle where
  falKey : Bool
  promptsResult : Except String (List String)
  fileRead : Except String Unit
  fal : Nat → Nat → FalOutcome

/-- The inner retry loop (`max_fal_retries = 3`): success returns the
download status; an empty result stops; a retryable error retries while
attempts remain, any other error stops. -/
def runFalRetries (fal : Nat → Nat → FalOutcome) (i attempt fuel : Nat) :
    Option Nat :=
  match fuel with
  | 0 => none
  | fuel1 + 1 =>
    match fal i attempt with
    | FalOutcome.ok status => some status
    | FalOutcome.noImages => none
    | FalOutcome.err r =>
      if r ∧ fuel1 ≠ 0 then runFalRetries fal i (attempt + 1) fuel1 else none

/-- `os.path.join(output_dir, f"pulid_{i}.jpg")`. -/
def mkPulidPath (output_dir : String) (i : Nat) : String :=
  output_dir ++ "/" ++ "pulid_" ++ toString i ++ ".jpg"

/-- The per-prompt loop of `generate_pulidflux_images`: on success the
path is appended to the returned list unconditionally, and written to
disk only when the download status is 200. -/
def falLoop (o : PulidOracle) (output_dir : String) :
    List String → Nat → List String × List String
  | [], _ => ([], [])
  | _p :: rest, i =>
    let next := falLoop o output_dir rest (i + 1)
    match runFalRetries o.fal i 0 3 with
    | some status =>
      (mkPulidPath output_dir i :: next.1,
       if status = 200 then mkPulidPath output_dir i :: next.2 else next.2)
    | none => next

/-- `generate_pulidflux_images`: the outer `try` catches the reference
read failing and returns `[]`; results are (returned paths, written
paths). -/
def generate_pulidflux_images (o : PulidOracle) (output_dir : String)
    (prompts : List String) : List String × List String :=
  match o.fileRead with
  | Except.error _ => ([], [])
  | Except.ok _ => falLoop o output_dir prompts 0

/-- `generate_synthetic_images`: missing `FAL_KEY` returns `[]`; the
prompt-generation call raising is caught by the outer `try` (also `[]`);
an empty prompt list returns `[]`; otherwise the FAL loop runs.  The
function is total — nothing propagates to the caller. -/
def generate_synthetic_images (o : PulidOracle) (num_images : Nat)
    (output_dir : String) : List String × List String :=
  if o.falKey = false then ([], [])
  else
    match o.promptsResult with
    | Except.error _ => ([], [])
    | Except.ok allPrompts =>
      let prompts := allPrompts.take num_images
      if prompts.isEmpty then ([], [])
      else generate_pulidflux_images o output_dir prompts

theorem falLoop_eq (o : PulidOracle) (dir : String) (prompts : List String)
    (k : Nat) :
    falLoop o dir prompts k =
      (((List.range' k prompts.length).filter
          (fun i => (runFalRetries o.fal i 0 3).isSome)).map (mkPulidPath dir),
       ((List.range' k prompts.length).filter
          (fun i => runFalRetries o.fal i 0 3 = some 200)).map
         (mkPulidPath dir)) := by
  induction prompts generalizing k with
  | nil => simp [falLoop]
  | cons p rest ih =>
    simp only [List.length_cons, List.range'_succ]
    cases hr : runFalRetries o.fal k 0 3 with
    | none =>
      simp [falLoop, hr, ih (k + 1), List.filter_cons]
    | some status =>
      by_cases h200 : status = 200
      · subst h200
        simp [falLoop, hr, ih (k + 1), List.filter_cons]
      · simp [falLoop, hr, ih (k + 1), List.filter_cons, h200]

/-- C6 (amended): `generate_synthetic_images` is total (never raises).
It returns `([], [])` when `FAL_KEY` is missing, when prompt generation
raises, when it yields no prompts, or when reading the reference image
fails.  Otherwise the returned list holds `pulid_{i}.jpg` exactly for the
prompt indices whose FAL generation succeeded (at most N of them) — but a
successful generation whose download answers a non-200 status still
contributes its path even though no file is written; only status-200
downloads reach the disk. -/
theorem generate_synthetic_images_spec (o : PulidOracle) (n : Nat)
    (dir : String) :
    (o.falKey = false → generate_synthetic_images o n dir = ([], [])) ∧
    (∀ e, o.promptsResult = Except.error e →
      generate_synthetic_images o n dir = ([], [])) ∧
    (∀ ps, o.promptsResult = Except.ok ps → (ps.take n).isEmpty = true →
      generate_synthetic_images o n dir = ([], [])) ∧
    (∀ e ps, o.falKey = true → o.fileRead = Except.error e →
      o.promptsResult = Except.ok ps → (ps.take n).isEmpty = false →
      generate_synthetic_images o n dir = ([], [])) ∧
    (∀ ps, o.falKey = true → o.fileRead = Except.ok () →
      o.promptsResult = Except.ok ps →
      (generate_synthetic_images o n dir).1 =
        ((List.range' 0 (ps.take n).length).filter
          (fun i => (runFalRetries o.fal i 0 3).isSome)).map
          (mkPulidPath dir) ∧
      (generate_synthetic_images o n dir).2 =
        ((List.range' 0 (ps.take n).length).filter
          (fun i => runFalRetries o.fal i 0 3 = some 200)).map
          (mkPulidPath dir) ∧
      (generate_synthetic_images o n dir).1.length ≤ n) := by
  refine ⟨?_, ?_, ?_, ?_, ?_⟩
  · intro hk
    simp [generate_synthetic_images, hk]
  · intro e he
    simp [generate_synthetic_images, he]
  · intro ps hps hemp
    simp [generate_synthetic_images, hps, hemp]
  · intro e ps hk hfr hps hemp
    simp [generate_synthetic_images, hk, hps, hemp,
      generate_pulidflux_images, hfr]
  · intro ps hk hfr hps
    have hmain : generate_synthetic_images o n dir =
        (((List.range' 0 (ps.take n).length).filter
            (fun i => (runFalRetries o.fal i 0 3).isSome)).map
            (mkPulidPath dir),
         ((List.range' 0 (ps.take n).length).filter
            (fun i => runFalRetries o.fal i 0 3 = some 200)).map
            (mkPulidPath dir)) := by
      by_cases hemp : (ps.take n).isEmpty = true
      · have hnil : ps.take n = [] := List.isEmpty_iff.mp hemp
        simp [generate_synthetic_images, hk, hps, hemp, hnil]
      · simp only [generate_synthetic_images, hk, hps,
          Bool.not_eq_true] at hemp ⊢
        rw [if_neg (by simp), if_neg (by simp [hemp])]
        rw [generate_pulidflux_images, hfr]
        exact falLoop_eq o dir (ps.take n) 0
    refine ⟨by rw [hmain], by rw [hmain], ?_⟩
    rw [hmain]
    calc (((List.range' 0 (ps.take n).length).filter
            (fun i => (runFalRetries o.fal i 0 3).isSome)).map
            (mkPulidPath dir)).length
        = ((List.range' 0 (ps.take n).length).filter
            (fun i => (runFalRetries o.fal i 0 3).isSome)).length := by
          rw [List.length_map]
      _ ≤ (List.range' 0 (ps.take n).length).length :=
          List.length_filter_le _ _
      _ = (ps.take n).length := by rw [List.length_range']
      _ ≤ n := by
          rw [List.length_take]
          exact Nat.min_le_left _ _

/-- Oracle: one prompt, FAL generation succeeds but the image download
answers HTTP 404. -/
def oDl404 : PulidOracle :=
  { falKey := true
    promptsResult := Except.ok ["prompt"]
    fileRead := Except.ok ()
    fal := fun _ _ => FalOutcome.ok 404 }

/-- C6 counterexample: with a 404 download, the function still returns
the path `out/pulid_0.jpg` although its download did not succeed and no
file was written — the returned list is not "exactly the prompts whose
image generation and download succeeded". -/
theorem generate_synthetic_images_counterexample :
    (generate_synthetic_images oDl404 1 "out").1 = ["out/pulid_0.jpg"] ∧
    (generate_synthetic_images oDl404 1 "out").2 = [] := by
  constructor
  · rfl
  · rfl

/-- Oracle matching the spec scenario: 5 prompts, indices 1 and 3 fail
with a non-retryable error, the rest succeed with status-200 downloads. -/
def oPartial : PulidOracle :=
  { falKey := true
    promptsResult := Except.ok ["p0", "p1", "p2", "p3", "p4"]
    fileRead := Except.ok ()
    fal := fun i _ =>
      if i = 1 ∨ i = 3 then FalOutcome.err false else FalOutcome.ok 200 }

/-- Witness for C6's amended theorem: 2 of 5 prompts fail non-retryably,
exactly 3 paths come back and the call does not raise. -/
theorem generate_synthetic_images_spec_witness :
    (generate_synthetic_images oPartial 5 "out").1 =
      ((List.range' 0 ((["p0", "p1", "p2", "p3", "p4"] : List String).take
          5).length).filter
        (fun i => (runFalRetries oPartial.fal i 0 3).isSome)).map
        (mkPulidPath "out") ∧
    (generate_synthetic_images oPartial 5 "out").1.length ≤ 5 ∧
    (generate_synthetic_images oPartial 5 "out").1.length = 3 :=
  ⟨((generate_synthetic_images_spec oPartial 5 "out").2.2.2.2
      ["p0", "p1", "p2", "p3", "p4"] rfl rfl rfl).1,
   ((generate_synthetic_images_spec oPartial 5 "out").2.2.2.2
      ["p0", "p1", "p2", "p3", "p4"] rfl rfl rfl).2.2,
   by rfl⟩

end CharForge
